import Mathlib

/-!
Verification of the Nybblers ingestion / scoring / embedding-backfill /
retrieval pipeline, as a shallow embedding of the repository's source into
Lean 4.  Numeric values from the TypeScript/SQL sources are modelled as
rationals (for exact arithmetic) or reals (where the source uses `ln`);
nullable SQL columns and optional TS fields are `Option`s.
-/

namespace Nybblers

/-! ## Growth rate (frontend/app/lib/simpleZip.ts, `getGrowthRate`) -/

/-- A point of a mentions time series, mirroring the TS type
`TimePoint = { date: string; label: string; value: number }`. -/
structure TimePoint where
  date : String
  label : String
  value : ℚ
deriving Repr, DecidableEq

/-- Embedding of `getGrowthRate` from `simpleZip.ts`:
`if (points.length < 2) return 0; const first = points[0].value;
const last = points[points.length - 1].value; if (first === 0) return 0;
return ((last - first) / first) * 100;` -/
def getGrowthRate (points : List TimePoint) : ℚ :=
  if h : points.length < 2 then 0
  else
    let first := (points.get ⟨0, by omega⟩).value
    let last := (points.get ⟨points.length - 1, by omega⟩).value
    if first = 0 then 0 else ((last - first) / first) * 100

/-- Convenience: a series whose values are the given rationals. -/
def seriesOf (vals : List ℚ) : List TimePoint :=
  vals.map (fun v => { date := "", label := "", value := v })

/-- The first value of a series (`points[0].value`; 0 on the empty
series, which the claims exclude). -/
def firstValue : List TimePoint → ℚ
  | [] => 0
  | p :: _ => p.value

/-- The last value of a series (`points[points.length - 1].value`; 0 on
the empty series, which the claims exclude). -/
def lastValue (points : List TimePoint) : ℚ :=
  match points.getLast? with
  | some p => p.value
  | none => 0

/-! ## Activity ratio (docs in src/unnamed/part_019) -/

/-- Embedding of the activity-ratio formula
`activity_ratio = recent_comment_count * ln(1 + age_in_days)` where
`age_in_days = (now - created_at)` in days. -/
noncomputable def activity_ratio (recent_comment_count : ℕ) (age_in_days : ℝ) : ℝ :=
  (recent_comment_count : ℝ) * Real.log (1 + age_in_days)

/-! ## Data model (migrations/migrations/001_setup.sql, backend/schema.sql)

Timestamps are integers (epoch seconds), vectors are rational lists,
nullable columns are `Option`s.  `activity_ratio` is kept out of the stored
row (it is real-valued and no claim concerns its stored copy). -/

/-- A row of the `posts` table. -/
structure Post where
  id : String
  subreddit : String
  title : String
  body : Option String
  author : Option String
  created_utc : Int
  score : Option Int
  url : Option String
  num_comments : Option Int
  last_comment_utc : Option Int
  recent_comment_count : Option Int
  embedding : Option (List ℚ)
  embedded_at : Option Int
  reconstructed_text : Option String
deriving Repr, DecidableEq, Inhabited

/-- A row of the `comments` table. -/
structure Comment where
  id : String
  post_id : Option String
  parent_id : Option String
  parent_type : Option String
  author : Option String
  body : String
  created_utc : Int
  score : Option Int
  controversiality : Option Int
deriving Repr, DecidableEq, Inhabited

/-! ## Text reconstruction (migrate.sql, src/unnamed/part_001) -/

/-- The `CASE` expression of the migrate.sql statement
`UPDATE posts SET reconstructed_text = CASE WHEN body IS NOT NULL AND
body <> '' THEN 'Title: ' || title || E'\n\n' || body ELSE
'Title: ' || title END`. -/
def reconstructText (title : String) (body : Option String) : String :=
  match body with
  | some b => if b ≠ "" then "Title: " ++ title ++ "\n\n" ++ b else "Title: " ++ title
  | none => "Title: " ++ title

/-- The same `UPDATE` restricted by its `WHERE reconstructed_text IS NULL`
clause, acting on one row: rows that already carry a reconstruction are
left untouched. -/
def rebuildRow (p : Post) : Post :=
  if p.reconstructed_text = none then
    { p with reconstructed_text := some (reconstructText p.title p.body) }
  else p

/-- The whole-table effect of the migrate.sql `UPDATE`. -/
def rebuildMissingReconstructedText (posts : List Post) : List Post :=
  posts.map rebuildRow

/-! ## Ingest loader (ingest_log, migrations 003 and 005) -/

/-- Status column of `ingest_log` (`'running' | 'complete' | 'failed'`). -/
inductive IngestStatus
  | running
  | complete
  | failed
deriving Repr, DecidableEq

/-- The idempotency key of one unit of ingestion work: `(file_name, year)`,
with `year = none` meaning a whole-file ingest (migration 005). -/
structure IngestKey where
  file_name : String
  year : Option Int
deriving Repr, DecidableEq

/-- A row of `ingest_log` (migration 003 plus the `year` column of 005). -/
structure IngestLogRow where
  key : IngestKey
  file_type : String
  rows_inserted : Option ℕ
  status : IngestStatus
  error_text : Option String
deriving Repr, DecidableEq

/-- The store state the Ingest Loader touches. -/
structure IngestDB where
  posts : List Post
  comments : List Comment
  log : List IngestLogRow
deriving Repr, DecidableEq

/-- The "already done?" check: is there a `complete` row for this key? -/
def hasComplete (log : List IngestLogRow) (k : IngestKey) : Bool :=
  log.any (fun r => decide (r.key = k ∧ r.status = IngestStatus.complete))

/-- Number of `complete` rows recorded for a key. -/
def completeCount (log : List IngestLogRow) (k : IngestKey) : ℕ :=
  (log.filter (fun r => decide (r.key = k ∧ r.status = IngestStatus.complete))).length

/-- Modelled from the spec: the upsert merge of `ingest.py` (not under
`src/`) — "insert-if-absent, else merge mutable fields (score, comment
count, and any latest-observed fields) while leaving identity fields
(author, created-at) untouched". -/
def mergePost (old new : Post) : Post :=
  { old with
      score := new.score
      num_comments := new.num_comments
      last_comment_utc := new.last_comment_utc }

/-- Upsert one parsed record into `posts` by its external id. -/
def upsertPost (posts : List Post) (r : Post) : List Post :=
  if posts.any (fun p => decide (p.id = r.id)) then
    posts.map (fun p => if p.id = r.id then mergePost p r else p)
  else posts ++ [r]

/-- Upsert a stream of parsed post records in order. -/
def upsertAll (posts : List Post) (records : List Post) : List Post :=
  records.foldl upsertPost posts

/-- Modelled from the spec: the comment upsert merge — mutable fields
(score, controversiality) are merged, identity fields are untouched. -/
def mergeComment (old new : Comment) : Comment :=
  { old with
      score := new.score
      controversiality := new.controversiality }

/-- Upsert one parsed comment record into `comments` by its external id. -/
def upsertComment (comments : List Comment) (r : Comment) : List Comment :=
  if comments.any (fun c => decide (c.id = r.id)) then
    comments.map (fun c => if c.id = r.id then mergeComment c r else c)
  else comments ++ [r]

/-- Upsert a stream of parsed comment records in order. -/
def upsertAllComments (comments : List Comment) (records : List Comment) :
    List Comment :=
  records.foldl upsertComment comments

/-- The parsed, year-filtered content of one dump file: a post-like
stream or a comment-like stream. -/
inductive FileRecords
  | submissions (records : List Post)
  | comments (records : List Comment)
deriving Repr, DecidableEq

/-- Number of records in the stream. -/
def FileRecords.count : FileRecords → ℕ
  | submissions records => records.length
  | comments records => records.length

/-- Apply the first `m` records of the stream to the store (the prefix
upserted before a crash; `m ≥ count` applies all of them). -/
def applyRecords (db : IngestDB) (content : FileRecords) (m : ℕ) : IngestDB :=
  match content with
  | FileRecords.submissions records =>
      { db with posts := upsertAll db.posts (records.take m) }
  | FileRecords.comments records =>
      { db with comments := upsertAllComments db.comments (records.take m) }

/-- Modelled from the spec: one run of `ingest.py` (not under `src/`) for
one `(file, year)` key.  If the key already has a `complete` row the whole
file is skipped.  Otherwise every record is upserted; `outcome = none`
means the stream ran to completion and the log row is finalized
`complete` with the row count, while `outcome = some (m, e)` means an
unhandled exception `e` interrupted the run after `m` records, the log row
is finalized `failed` with the error text, and the already-upserted rows
are retained (partial progress is not rolled back). -/
def ingestRun (db : IngestDB) (k : IngestKey) (file_type : String)
    (content : FileRecords) (outcome : Option (ℕ × String)) : IngestDB :=
  if hasComplete db.log k then db
  else
    match outcome with
    | none =>
        let db' := applyRecords db content content.count
        { db' with
            log := db.log ++
              [{ key := k, file_type := file_type,
                 rows_inserted := some content.count,
                 status := IngestStatus.complete, error_text := none }] }
    | some (m, e) =>
        let db' := applyRecords db content m
        { db' with
            log := db.log ++
              [{ key := k, file_type := file_type, rows_inserted := none,
                 status := IngestStatus.failed, error_text := some e }] }

/-! ## Embedding backfill (embed.py / embed_comments.py, runbook §3.2-3.3) -/

/-- A row of `comment_embeddings` (migration 004): both the vector and the
timestamp are `NOT NULL`, so the stored row carries them totally. -/
structure CommentEmbeddingRow where
  comment_id : String
  embedding : List ℚ
  embedded_at : Int
deriving Repr, DecidableEq

/-- The store state the Embedding Backfill Worker touches. -/
structure EmbedStore where
  posts : List Post
  comments : List Comment
  comment_embeddings : List CommentEmbeddingRow
deriving Repr, DecidableEq

/-- Post candidate predicate: `reconstructed_text` set, `embedded_at` null
(runbook: "Embeds all posts that have reconstructed_text but no
embedded_at"; partial index `posts_embedded_at_idx ... WHERE embedded_at
IS NULL` in migration 001). -/
def postNeedsEmbedding (p : Post) : Bool :=
  p.reconstructed_text.isSome && p.embedded_at.isNone

/-- Does a comment already have its embedding row? -/
def hasCommentEmbedding (rows : List CommentEmbeddingRow) (cid : String) : Bool :=
  rows.any (fun r => decide (r.comment_id = cid))

/-- Comment candidate predicate: no corresponding `comment_embeddings`
row. -/
def commentNeedsEmbedding (rows : List CommentEmbeddingRow) (c : Comment) : Bool :=
  !(hasCommentEmbedding rows c.id)

/-- Write a candidate post's vector together with its `embedded_at`
timestamp; leave non-candidates untouched. -/
def embedPostIfNeeded (provider : String → List ℚ) (now : Int) (p : Post) : Post :=
  if postNeedsEmbedding p then
    { p with
        embedding := some (provider (p.reconstructed_text.getD ""))
        embedded_at := some now }
  else p

/-- The `comment_embeddings` row written for one candidate comment. -/
def newCommentEmbedding (provider : String → List ℚ) (now : Int) (c : Comment) :
    CommentEmbeddingRow :=
  { comment_id := c.id, embedding := provider c.body, embedded_at := now }

/-- Modelled from the spec: one full run of the Embedding Backfill Worker
(`embed.py` and `embed_comments.py` are not under `src/`).  Candidates are
selected by the two predicates above; each candidate costs one embedding
input to the provider; post candidates get their vector and `embedded_at`
written, comment candidates get a `comment_embeddings` row inserted.
Returns the new store and the number of embedding inputs sent. -/
def runBackfill (provider : String → List ℚ) (now : Int) (s : EmbedStore) :
    EmbedStore × ℕ :=
  let postCands := s.posts.filter postNeedsEmbedding
  let comCands := s.comments.filter (commentNeedsEmbedding s.comment_embeddings)
  ({ posts := s.posts.map (embedPostIfNeeded provider now)
     comments := s.comments
     comment_embeddings := s.comment_embeddings ++
        comCands.map (newCommentEmbedding provider now) },
   postCands.length + comCands.length)

/-! ## comment_embeddings batch-write invariant (migration 004) -/

/-- A `comment_embeddings` row as raw storage, with each column allowed to
be SQL NULL, so that the `NOT NULL` contract is a provable property of
reachable states rather than a typing assumption. -/
structure StoredCERow where
  comment_id : String
  embedding : Option (List ℚ)
  embedded_at : Option Int
deriving Repr, DecidableEq

/-- Modelled from the spec: one batch of the comment embedding backfill
against the store (`embed_comments.py` is not under `src/`).  A successful
batch inserts one row per not-yet-present comment id, supplying both
columns at once (schema 004 declares both `NOT NULL`, with
`embedded_at DEFAULT NOW()`); a failed batch writes nothing. -/
inductive BatchStep : List StoredCERow → List StoredCERow → Prop
  | success (s : List StoredCERow) (batch : List (String × List ℚ × Int)) :
      BatchStep s (s ++
        (batch.filter (fun b => !(s.any (fun r => decide (r.comment_id = b.1))))).map
          (fun b => { comment_id := b.1, embedding := some b.2.1,
                      embedded_at := some b.2.2 }))
  | failure (s : List StoredCERow) : BatchStep s s

/-- Store states reachable from the freshly-migrated (empty) table by any
sequence of successful or failed batches. -/
inductive ReachableCE : List StoredCERow → Prop
  | empty : ReachableCE []
  | step {s s' : List StoredCERow} : ReachableCE s → BatchStep s s' → ReachableCE s'

/-! ## Retrieval and analytics (search / demand count) -/

/-- Modelled from the spec: the posts matching a query at a similarity
threshold (the FastAPI retrieval endpoints are not under `src/`).  The
similarity primitive is abstracted as a score function on stored posts;
a post matches when its similarity is at least the caller's
`min_similarity`. -/
def matchingPosts (sim : Post → ℚ) (min_similarity : ℚ) (posts : List Post) :
    List Post :=
  posts.filter (fun p => decide (min_similarity ≤ sim p))

/-- Result ordering of `search`: highest similarity first, ties broken by
most-recent creation time. -/
def searchOrder (sim : Post → ℚ) (a b : Post) : Prop :=
  sim b < sim a ∨ (sim a = sim b ∧ b.created_utc ≤ a.created_utc)

instance (sim : Post → ℚ) (a b : Post) : Decidable (searchOrder sim a b) :=
  inferInstanceAs (Decidable (_ ∨ _))

/-- Modelled from the spec: `search(query, community?, limit)` — ranked
matching posts, highest similarity first, ties by most-recent creation,
truncated to `limit`. -/
def search (sim : Post → ℚ) (min_similarity : ℚ) (posts : List Post)
    (limit : ℕ) : List Post :=
  ((matchingPosts sim min_similarity posts).mergeSort
    (fun a b => decide (searchOrder sim a b))).take limit

/-- Result record of `demand_count`. -/
structure DemandCountResult where
  matching_post_count : ℕ
  distinct_author_count : ℕ
  total_comment_count : Int
deriving Repr, DecidableEq

/-- Modelled from the spec: `demand_count(query, community?,
min_similarity)` — matching posts, distinct non-deleted authors, total
comments, all over the same threshold as `search`. -/
def demand_count (sim : Post → ℚ) (min_similarity : ℚ) (posts : List Post) :
    DemandCountResult :=
  let ms := matchingPosts sim min_similarity posts
  { matching_post_count := ms.length
    distinct_author_count :=
      (((ms.filterMap Post.author).filter (fun a => decide (a ≠ "[deleted]"))).dedup).length
    total_comment_count := (ms.map (fun p => p.num_comments.getD 0)).sum }

/-! ## Vector column dimensionality (schema files) -/

/-- A declared vector column of a schema file. -/
structure VectorColumn where
  table : String
  column : String
  dim : ℕ
deriving Repr, DecidableEq

/-- Vector columns declared by the numbered migration chain
(001_setup.sql and 004_comment_embeddings.sql): all `vector(1536)`. -/
def migrationVectorColumns : List VectorColumn :=
  [{ table := "posts", column := "embedding", dim := 1536 },
   { table := "alerts", column := "query_embedding", dim := 1536 },
   { table := "comment_embeddings", column := "embedding", dim := 1536 }]

/-- Vector columns declared by backend/schema.sql: all `vector(1536)`. -/
def backendSchemaVectorColumns : List VectorColumn :=
  [{ table := "posts", column := "embedding", dim := 1536 },
   { table := "alerts", column := "query_embedding", dim := 1536 }]

/-- The vector column created by the executable (uncommented) DDL of
migrate.sql (src/unnamed/part_001):
`CREATE TABLE IF NOT EXISTS comment_embeddings (... embedding vector(768)
NOT NULL ...)`. -/
def migrateSqlCommentEmbeddings : List VectorColumn :=
  [{ table := "comment_embeddings", column := "embedding", dim := 768 }]

/-- Effect of `CREATE TABLE IF NOT EXISTS` on the set of declared vector
columns: a no-op when the table already exists, otherwise the table's
columns are added. -/
def createTableIfNotExists (schema : List VectorColumn) (table : String)
    (cols : List VectorColumn) : List VectorColumn :=
  if schema.any (fun c => decide (c.table = table)) then schema else schema ++ cols

/-- Schema state after migrations 001, 002, 003 and 005 only (004 not yet
applied, as the runbook allows: "004 if you add comment embeddings
later"): the 1536-dim posts and alerts columns exist, `comment_embeddings`
does not. -/
def schemaAfter001to003 : List VectorColumn :=
  [{ table := "posts", column := "embedding", dim := 1536 },
   { table := "alerts", column := "query_embedding", dim := 1536 }]

/-- Schema state after then running migrate.sql's executable
`CREATE TABLE IF NOT EXISTS comment_embeddings` against that database. -/
def schemaAfterMigrateSql : List VectorColumn :=
  createTableIfNotExists schemaAfter001to003 "comment_embeddings"
    migrateSqlCommentEmbeddings

/-- A schema state mixes dimensions when two of its vector columns have
different declared dimensionality. -/
def mixedDims (schema : List VectorColumn) : Prop :=
  ∃ c1 ∈ schema, ∃ c2 ∈ schema, c1.dim ≠ c2.dim

/-! ## Frontend retrieval client (src/unnamed/part_002, api.ts) -/

/-- The parts of a `fetch` response the client inspects: the HTTP status,
the parsed JSON payload on success, and the optional `detail` field of an
error payload. -/
structure HttpResponse (α : Type) where
  status : ℕ
  json : α
  detail : Option String

/-- The Fetch API predicate `res.ok`: status in the range 200-299. -/
def respOk {α : Type} (r : HttpResponse α) : Prop :=
  200 ≤ r.status ∧ r.status ≤ 299

instance {α : Type} (r : HttpResponse α) : Decidable (respOk r) :=
  inferInstanceAs (Decidable (_ ∧ _))

/-- How a client call resolves: a value (possibly `null`) or a thrown
`Error` with its message. -/
inductive FetchOutcome (α : Type) where
  | value : Option α → FetchOutcome α
  | thrown : String → FetchOutcome α
deriving Repr, DecidableEq

/-- Payload of the active-threads endpoints (shape irrelevant to the
status dispatch under scrutiny, so thread entries are kept abstract). -/
structure ActiveThreadsResponse where
  active_count : ℕ
  total_estimated_impressions : ℚ
  window_hours : ℚ
  threads : List String
deriving Repr, DecidableEq

/-- Embedding of `getActiveThreads` from api.ts (the status dispatch on
the awaited response): `if (res.status === 503) return null; if (!res.ok)
throw new Error(err.detail ?? "Active threads request failed");
return res.json();`. -/
def getActiveThreads (res : HttpResponse ActiveThreadsResponse) :
    FetchOutcome ActiveThreadsResponse :=
  if res.status = 503 then FetchOutcome.value none
  else if ¬ respOk res then
    FetchOutcome.thrown (res.detail.getD "Active threads request failed")
  else FetchOutcome.value (some res.json)

/-- Embedding of `getThreadsActivity` from api.ts: an empty id list
resolves to `null` before any request; then the same 503 / ok dispatch
with its own error message. -/
def getThreadsActivity (postIds : List String)
    (res : HttpResponse ActiveThreadsResponse) :
    FetchOutcome ActiveThreadsResponse :=
  if postIds.length = 0 then FetchOutcome.value none
  else if res.status = 503 then FetchOutcome.value none
  else if ¬ respOk res then
    FetchOutcome.thrown (res.detail.getD "Thread activity request failed")
  else FetchOutcome.value (some res.json)

/-! # Theorems -/

/-! ## Shared helper lemmas -/

theorem firstValue_eq_get (points : List TimePoint) (h : 0 < points.length) :
    firstValue points = (points.get ⟨0, h⟩).value := by
  cases points with
  | nil => simp at h
  | cons p ps => rfl

theorem lastValue_eq_get (points : List TimePoint) (h : 0 < points.length) :
    lastValue points = (points.get ⟨points.length - 1, by omega⟩).value := by
  have hne : points ≠ [] := List.length_pos.1 h
  unfold lastValue
  rw [List.getLast?_eq_getLast points hne, List.getLast_eq_get points hne]

theorem map_eq_self_of_fix {α : Type} (l : List α) (f : α → α)
    (h : ∀ x ∈ l, f x = x) : l.map f = l := by
  induction l with
  | nil => rfl
  | cons a t ih =>
    simp only [List.map_cons, List.cons.injEq]
    exact ⟨h a (by simp), ih (fun x hx => h x (by simp [hx]))⟩

/-! ## C10 -/

/-- C10: for every time series containing fewer than two points, the
growth-rate computation (`getGrowthRate` in simpleZip.ts) returns
exactly 0. -/
theorem growthRate_short_series (points : List TimePoint)
    (h : points.length < 2) : getGrowthRate points = 0 := by
  unfold getGrowthRate
  rw [dif_pos h]

/-- Witness for C10 at the one-point series `[5]`. -/
theorem growthRate_short_series_witness :
    (seriesOf [5]).length < 2 ∧ getGrowthRate (seriesOf [5]) = 0 :=
  ⟨by decide, growthRate_short_series (seriesOf [5]) (by decide)⟩

/-! ## C2 -/

/-- C2: for every non-empty mentions series, `getGrowthRate` returns
`(last − first) / first × 100`, except that a zero first value yields 0
rather than a division error; in particular the series `[0, 0, 5]`
yields 0. -/
theorem growthRate_formula (points : List TimePoint) (h : points ≠ []) :
    (getGrowthRate points =
      if firstValue points = 0 then 0
      else ((lastValue points - firstValue points) / firstValue points) * 100) ∧
    getGrowthRate (seriesOf [0, 0, 5]) = 0 := by
  refine ⟨?_, by decide⟩
  have hlen : 0 < points.length := List.length_pos.2 h
  by_cases h2 : points.length < 2
  · have h1 : points.length = 1 := by omega
    obtain ⟨p, hp⟩ := List.length_eq_one.1 h1
    subst hp
    show getGrowthRate [p] = _
    rw [growthRate_short_series [p] (by simp)]
    have hf : firstValue [p] = p.value := rfl
    have hl : lastValue [p] = p.value := by simp [lastValue]
    rw [hf, hl]
    split
    · rfl
    · rw [sub_self, zero_div, zero_mul]
  · unfold getGrowthRate
    rw [dif_neg h2, firstValue_eq_get points hlen, lastValue_eq_get points hlen]

/-- Witness for C2 at the series `[0, 0, 5]`. -/
theorem growthRate_formula_witness :
    seriesOf [0, 0, 5] ≠ [] ∧
    (getGrowthRate (seriesOf [0, 0, 5]) =
      if firstValue (seriesOf [0, 0, 5]) = 0 then 0
      else ((lastValue (seriesOf [0, 0, 5]) - firstValue (seriesOf [0, 0, 5])) /
        firstValue (seriesOf [0, 0, 5])) * 100) ∧
    getGrowthRate (seriesOf [0, 0, 5]) = 0 :=
  ⟨by decide,
   (growthRate_formula (seriesOf [0, 0, 5]) (by decide)).1,
   (growthRate_formula (seriesOf [0, 0, 5]) (by decide)).2⟩

/-! ## C3 -/

/-- C3 counterexample: two posts of identical age zero (both created at
the processing instant) with recent comment counts 5 and 2 have equal
activity ratios (`ln(1 + 0) = 0`), so the higher-count post's ratio is
not strictly higher. -/
theorem activity_ratio_age_zero_counterexample :
    ¬ activity_ratio 2 0 < activity_ratio 5 0 := by
  simp [activity_ratio]

/-- C3 (amended): at the same processing time, with identical recent
comment counts the older post's activity ratio is ≥ the younger's; with
identical and positive age, the higher recent comment count gives a
strictly higher ratio (at age exactly zero both ratios are 0). -/
theorem activity_ratio_monotone (c c₁ c₂ : ℕ) (a a₁ a₂ : ℝ)
    (ha₂ : 0 ≤ a₂) (h₁₂ : a₂ ≤ a₁) (ha : 0 < a) (hc : c₂ < c₁) :
    activity_ratio c a₂ ≤ activity_ratio c a₁ ∧
    activity_ratio c₂ a < activity_ratio c₁ a := by
  constructor
  · unfold activity_ratio
    refine mul_le_mul_of_nonneg_left ?_ (by positivity)
    exact Real.log_le_log (by linarith) (by linarith)
  · unfold activity_ratio
    refine mul_lt_mul_of_pos_right ?_ (Real.log_pos (by linarith))
    exact_mod_cast hc

/-- Witness for C3's amended statement at counts 5 and 2, ages 1 and 2. -/
theorem activity_ratio_monotone_witness :
    (0:ℝ) ≤ 1 ∧ (1:ℝ) ≤ 2 ∧ (0:ℝ) < 1 ∧ 2 < 5 ∧
    (activity_ratio 5 1 ≤ activity_ratio 5 2 ∧
      activity_ratio 2 1 < activity_ratio 5 1) :=
  ⟨by norm_num, by norm_num, by norm_num, by norm_num,
   activity_ratio_monotone 5 5 2 1 2 1 (by norm_num) (by norm_num)
     (by norm_num) (by norm_num)⟩

/-! ## C4 -/

/-- C4: the Text Reconstructor writes
`"Title: {title}\n\n{body}"` for a non-null, non-empty body and
`"Title: {title}"` otherwise, and it touches only rows whose
`reconstructed_text` is currently null, leaving already-reconstructed
rows unchanged. -/
theorem reconstructed_text_contract (p : Post) :
    (∀ b, p.reconstructed_text = none → p.body = some b → b ≠ "" →
      (rebuildRow p).reconstructed_text =
        some ("Title: " ++ p.title ++ "\n\n" ++ b)) ∧
    (p.reconstructed_text = none → (p.body = none ∨ p.body = some "") →
      (rebuildRow p).reconstructed_text = some ("Title: " ++ p.title)) ∧
    (∀ t, p.reconstructed_text = some t → rebuildRow p = p) := by
  refine ⟨?_, ?_, ?_⟩
  · intro b hnull hbody hne
    simp [rebuildRow, hnull, reconstructText, hbody, hne]
  · intro hnull hbody
    rcases hbody with hb | hb <;> simp [rebuildRow, hnull, reconstructText, hb]
  · intro t ht
    simp [rebuildRow, ht]

/-- Witness for C4: a post with a non-empty body and null
`reconstructed_text` gets the two-line form; a post that already carries
a reconstruction is unchanged. -/
theorem reconstructed_text_contract_witness :
    (rebuildRow { (default : Post) with
        title := "T", body := some "B" }).reconstructed_text =
      some ("Title: " ++ "T" ++ "\n\n" ++ "B") ∧
    rebuildRow { (default : Post) with
        title := "T", reconstructed_text := some "done" } =
      { (default : Post) with title := "T", reconstructed_text := some "done" } :=
  ⟨(reconstructed_text_contract _).1 "B" rfl rfl (by decide),
   (reconstructed_text_contract _).2.2 "done" rfl⟩

/-! ## C9 -/

/-- C9: the retrieval client maps an HTTP 503 from the active-threads
endpoints to a null (empty-state) result rather than an error or an
ordinary empty result, resolves 2xx responses to the parsed payload, and
raises every other non-success status as an error. -/
theorem client_status_dispatch (res : HttpResponse ActiveThreadsResponse)
    (postIds : List String) (hids : postIds ≠ []) :
    (res.status = 503 →
      getActiveThreads res = FetchOutcome.value none ∧
      getThreadsActivity postIds res = FetchOutcome.value none) ∧
    (respOk res →
      getActiveThreads res = FetchOutcome.value (some res.json) ∧
      getThreadsActivity postIds res = FetchOutcome.value (some res.json)) ∧
    (res.status ≠ 503 → ¬ respOk res →
      getActiveThreads res =
        FetchOutcome.thrown (res.detail.getD "Active threads request failed") ∧
      getThreadsActivity postIds res =
        FetchOutcome.thrown (res.detail.getD "Thread activity request failed")) := by
  have hlen : ¬ postIds.length = 0 := by
    simpa [List.length_eq_zero] using hids
  refine ⟨?_, ?_, ?_⟩
  · intro h503
    constructor
    · unfold getActiveThreads
      rw [if_pos h503]
    · unfold getThreadsActivity
      rw [if_neg hlen, if_pos h503]
  · intro hok
    have h503 : ¬ res.status = 503 := by
      obtain ⟨_, hb⟩ := hok
      omega
    constructor
    · unfold getActiveThreads
      rw [if_neg h503, if_neg (not_not_intro hok)]
    · unfold getThreadsActivity
      rw [if_neg hlen, if_neg h503, if_neg (not_not_intro hok)]
  · intro h503 hnok
    constructor
    · unfold getActiveThreads
      rw [if_neg h503, if_pos hnok]
    · unfold getThreadsActivity
      rw [if_neg hlen, if_neg h503, if_pos hnok]

/-- Witness for C9 at a concrete 503 response with one post id. -/
theorem client_status_dispatch_witness :
    getActiveThreads
      { status := 503,
        json := { active_count := 0, total_estimated_impressions := 0,
                  window_hours := 24, threads := [] },
        detail := none } = FetchOutcome.value none ∧
    getThreadsActivity ["p1"]
      { status := 503,
        json := { active_count := 0, total_estimated_impressions := 0,
                  window_hours := 24, threads := [] },
        detail := none } = FetchOutcome.value none :=
  (client_status_dispatch _ ["p1"] (by decide)).1 rfl

/-! ## C8 -/

/-- C8 evaluation at the failing input: applying migrate.sql's executable
`CREATE TABLE IF NOT EXISTS comment_embeddings (... vector(768) ...)` to
a database migrated with 001/002/003/005 (posts and alerts vector columns
at 1536, no comment_embeddings table) yields a schema whose vector
columns mix two dimensionalities, while each schema file taken on its own
declares a single dimensionality. -/
theorem migrate_sql_mixes_dimensions :
    mixedDims schemaAfterMigrateSql ∧
    ({ table := "posts", column := "embedding", dim := 1536 } : VectorColumn)
        ∈ schemaAfterMigrateSql ∧
    ({ table := "comment_embeddings", column := "embedding", dim := 768 } :
        VectorColumn) ∈ schemaAfterMigrateSql ∧
    (∀ c ∈ migrationVectorColumns, c.dim = 1536) ∧
    (∀ c ∈ backendSchemaVectorColumns, c.dim = 1536) ∧
    (∀ c ∈ migrateSqlCommentEmbeddings, c.dim = 768) := by
  refine ⟨⟨{ table := "posts", column := "embedding", dim := 1536 }, ?_,
    { table := "comment_embeddings", column := "embedding", dim := 768 }, ?_, ?_⟩,
    ?_, ?_, ?_, ?_, ?_⟩ <;> decide

/-! ## C7 -/

/-- C7: for a fixed query (similarity function) and threshold,
`demand_count`'s `matching_post_count` equals the number of distinct
posts returned by `search` at the same threshold with an unbounded
limit. -/
theorem demand_count_matches_search (sim : Post → ℚ) (min_similarity : ℚ)
    (posts : List Post) (limit : ℕ) (hnd : posts.Nodup)
    (hlim : (matchingPosts sim min_similarity posts).length ≤ limit) :
    (demand_count sim min_similarity posts).matching_post_count =
      ((search sim min_similarity posts limit).dedup).length := by
  unfold search
  have hperm := List.mergeSort_perm (matchingPosts sim min_similarity posts)
    (fun a b => decide (searchOrder sim a b))
  have hlen : ((matchingPosts sim min_similarity posts).mergeSort
      (fun a b => decide (searchOrder sim a b))).length =
      (matchingPosts sim min_similarity posts).length := hperm.length_eq
  rw [List.take_of_length_le (by rw [hlen]; exact hlim)]
  have hnodup : ((matchingPosts sim min_similarity posts).mergeSort
      (fun a b => decide (searchOrder sim a b))).Nodup :=
    hperm.symm.nodup (hnd.filter _)
  rw [List.Nodup.dedup hnodup, hlen]
  rfl

/-- Witness for C7 on a one-post store with constant similarity 1,
threshold 0 and limit 5. -/
theorem demand_count_matches_search_witness :
    ([(default : Post)] : List Post).Nodup ∧
    (matchingPosts (fun _ => 1) 0 [(default : Post)]).length ≤ 5 ∧
    (demand_count (fun _ => 1) 0 [(default : Post)]).matching_post_count =
      ((search (fun _ => 1) 0 [(default : Post)] 5).dedup).length :=
  ⟨by decide, by decide,
   demand_count_matches_search (fun _ => 1) 0 [(default : Post)] 5
     (by decide) (by decide)⟩

/-! ## C5 -/

theorem postNeedsEmbedding_embedPostIfNeeded (provider : String → List ℚ)
    (now : Int) (p : Post) :
    postNeedsEmbedding (embedPostIfNeeded provider now p) = false := by
  unfold embedPostIfNeeded
  by_cases h : postNeedsEmbedding p = true
  · rw [if_pos h]
    simp [postNeedsEmbedding]
  · rw [if_neg h]
    exact Bool.eq_false_iff.2 h

theorem hasCommentEmbedding_append (rows₁ rows₂ : List CommentEmbeddingRow)
    (cid : String) :
    hasCommentEmbedding (rows₁ ++ rows₂) cid =
      (hasCommentEmbedding rows₁ cid || hasCommentEmbedding rows₂ cid) := by
  simp [hasCommentEmbedding, List.any_append]

theorem commentNeedsEmbedding_eq_false_iff (rows : List CommentEmbeddingRow)
    (c : Comment) :
    commentNeedsEmbedding rows c = false ↔ hasCommentEmbedding rows c.id = true := by
  simp [commentNeedsEmbedding]

/-- After one backfill run, every comment of the store is covered by a
`comment_embeddings` row. -/
theorem comment_covered (provider : String → List ℚ) (now : Int)
    (s : EmbedStore) (c : Comment) (hc : c ∈ s.comments) :
    commentNeedsEmbedding (s.comment_embeddings ++
      (s.comments.filter (commentNeedsEmbedding s.comment_embeddings)).map
        (newCommentEmbedding provider now)) c = false := by
  rw [commentNeedsEmbedding_eq_false_iff, hasCommentEmbedding_append]
  by_cases h : hasCommentEmbedding s.comment_embeddings c.id = true
  · simp [h]
  · have hmem : c ∈ s.comments.filter (commentNeedsEmbedding s.comment_embeddings) :=
      List.mem_filter.2 ⟨hc, by
        unfold commentNeedsEmbedding
        rw [Bool.eq_false_iff.2 h]
        rfl⟩
    have hrow : hasCommentEmbedding
        ((s.comments.filter (commentNeedsEmbedding s.comment_embeddings)).map
          (newCommentEmbedding provider now)) c.id = true := by
      simp only [hasCommentEmbedding, List.any_eq_true]
      exact ⟨newCommentEmbedding provider now c, List.mem_map_of_mem _ hmem,
        by simp [newCommentEmbedding]⟩
    simp [hrow]

/-- A store where no post and no comment needs embedding is a fixed point
of the backfill worker, at zero embedding calls. -/
theorem runBackfill_fixed (provider : String → List ℚ) (now : Int)
    (t : EmbedStore)
    (hp : ∀ p ∈ t.posts, postNeedsEmbedding p = false)
    (hc : ∀ c ∈ t.comments, commentNeedsEmbedding t.comment_embeddings c = false) :
    runBackfill provider now t = (t, 0) := by
  unfold runBackfill
  have h1 : t.posts.filter postNeedsEmbedding = [] :=
    List.filter_eq_nil_iff.2 (fun a ha => by simp [hp a ha])
  have h2 : t.comments.filter (commentNeedsEmbedding t.comment_embeddings) = [] :=
    List.filter_eq_nil_iff.2 (fun a ha => by simp [hc a ha])
  have h3 : t.posts.map (embedPostIfNeeded provider now) = t.posts :=
    map_eq_self_of_fix _ _ (fun p hmem => by
      unfold embedPostIfNeeded
      rw [if_neg (by simp [hp p hmem])])
  rw [h1, h2, h3]
  simp

/-- C5: the backfill worker selects exactly the posts with
`reconstructed_text` set and `embedded_at` null and exactly the comments
with no `comment_embeddings` row, so a second run immediately after a
full run performs zero embedding calls and writes nothing. -/
theorem backfill_idempotent (provider : String → List ℚ) (now now₂ : Int)
    (s : EmbedStore) :
    (∀ p : Post, postNeedsEmbedding p = true ↔
      (p.reconstructed_text ≠ none ∧ p.embedded_at = none)) ∧
    (∀ c : Comment, commentNeedsEmbedding s.comment_embeddings c = true ↔
      ¬ ∃ r ∈ s.comment_embeddings, r.comment_id = c.id) ∧
    runBackfill provider now₂ (runBackfill provider now s).1 =
      ((runBackfill provider now s).1, 0) := by
  refine ⟨?_, ?_, ?_⟩
  · intro p
    simp [postNeedsEmbedding, Option.isSome_iff_ne_none, Option.isNone_iff_eq_none]
  · intro c
    simp [commentNeedsEmbedding, hasCommentEmbedding, List.any_eq_true]
  · apply runBackfill_fixed
    · intro p hp
      simp only [runBackfill] at hp
      obtain ⟨q, _, rfl⟩ := List.mem_map.1 hp
      exact postNeedsEmbedding_embedPostIfNeeded provider now q
    · intro c hc
      simp only [runBackfill] at hc ⊢
      exact comment_covered provider now s c hc

/-! ## C6 -/

theorem reachableCE_columns_not_null {s : List StoredCERow}
    (h : ReachableCE s) :
    ∀ r ∈ s, r.embedding ≠ none ∧ r.embedded_at ≠ none := by
  induction h with
  | empty => intro r hr; simp at hr
  | step hreach hbatch ih =>
    intro r hrmem
    cases hbatch with
    | success batch =>
      rcases List.mem_append.1 hrmem with hmem | hmem
      · exact ih r hmem
      · obtain ⟨b, _, rfl⟩ := List.mem_map.1 hmem
        simp
    | failure => exact ih r hrmem

theorem batchStep_mono {s s' : List StoredCERow} (h : BatchStep s s') :
    ∀ r ∈ s, r ∈ s' := by
  cases h with
  | success batch => exact fun r hr => List.mem_append_left _ hr
  | failure => exact fun r hr => hr

/-- C6: in every reachable `comment_embeddings` state, every present row
carries both its vector and its `embedded_at` timestamp (never a null
column — a not-yet-embedded comment is an absent row), and any batch,
failed ones included, leaves the rows already written by other batches
present and unaltered. -/
theorem comment_embeddings_invariant (s s' : List StoredCERow)
    (hreach : ReachableCE s) (hstep : BatchStep s s') :
    (∀ r ∈ s, r.embedding ≠ none ∧ r.embedded_at ≠ none) ∧
    (∀ r ∈ s', r.embedding ≠ none ∧ r.embedded_at ≠ none) ∧
    (∀ r ∈ s, r ∈ s') :=
  ⟨reachableCE_columns_not_null hreach,
   reachableCE_columns_not_null (hreach.step hstep),
   batchStep_mono hstep⟩

/-- Witness for C6 on the store holding one row written by one
successful batch, followed by a failed batch. -/
theorem comment_embeddings_invariant_witness :
    (∀ r ∈ ([{ comment_id := "c1", embedding := some [1], embedded_at := some 5 }] :
        List StoredCERow), r.embedding ≠ none ∧ r.embedded_at ≠ none) ∧
    (∀ r ∈ ([{ comment_id := "c1", embedding := some [1], embedded_at := some 5 }] :
        List StoredCERow), r.embedding ≠ none ∧ r.embedded_at ≠ none) ∧
    (∀ r ∈ ([{ comment_id := "c1", embedding := some [1], embedded_at := some 5 }] :
        List StoredCERow),
      r ∈ ([{ comment_id := "c1", embedding := some [1], embedded_at := some 5 }] :
        List StoredCERow)) :=
  comment_embeddings_invariant _ _
    (ReachableCE.step ReachableCE.empty
      (BatchStep.success [] [("c1", [1], 5)]))
    (BatchStep.failure _)

/-! ## C1 -/

theorem completeCount_append (l₁ l₂ : List IngestLogRow) (k : IngestKey) :
    completeCount (l₁ ++ l₂) k = completeCount l₁ k + completeCount l₂ k := by
  simp [completeCount, List.filter_append]

theorem completeCount_eq_zero (l : List IngestLogRow) (k : IngestKey)
    (h : hasComplete l k = false) : completeCount l k = 0 := by
  unfold completeCount
  rw [List.filter_eq_nil_iff.2]
  · rfl
  · intro r hr
    simp only [hasComplete, List.any_eq_false, decide_eq_true_eq] at h
    simpa using h r hr

/-- A run against a key that already has a `complete` row skips the whole
file: the store is returned unchanged. -/
theorem ingestRun_skip (db : IngestDB) (k : IngestKey) (ft : String)
    (content : FileRecords) (outcome : Option (ℕ × String))
    (h : hasComplete db.log k = true) :
    ingestRun db k ft content outcome = db := by
  unfold ingestRun
  rw [if_pos h]

/-- The log after a successful (non-skipped) run: the old log plus one
`complete` row for the key. -/
theorem ingestRun_complete_log (db : IngestDB) (k : IngestKey) (ft : String)
    (content : FileRecords) (h : ¬ hasComplete db.log k = true) :
    (ingestRun db k ft content none).log = db.log ++
      [{ key := k, file_type := ft, rows_inserted := some content.count,
         status := IngestStatus.complete, error_text := none }] := by
  unfold ingestRun
  rw [if_neg h]

/-- The log after a failed (non-skipped) run: the old log plus one
`failed` row carrying the error text. -/
theorem ingestRun_failed_log (db : IngestDB) (k : IngestKey) (ft : String)
    (content : FileRecords) (m : ℕ) (e : String)
    (h : ¬ hasComplete db.log k = true) :
    (ingestRun db k ft content (some (m, e))).log = db.log ++
      [{ key := k, file_type := ft, rows_inserted := none,
         status := IngestStatus.failed, error_text := some e }] := by
  unfold ingestRun
  rw [if_neg h]

/-- C1: the pair (file identifier, year) is an idempotency key — a run
against a key that already has a `complete` row is a no-op on posts,
comments and the log; a second attempt right after a successful run
changes nothing; and no run can ever bring a key's number of `complete`
rows above one. -/
theorem ingest_idempotent (db : IngestDB) (k : IngestKey)
    (ft ft2 : String) (content content2 : FileRecords)
    (outcome outcome2 : Option (ℕ × String))
    (hcc : ∀ k₀, completeCount db.log k₀ ≤ 1) :
    (hasComplete db.log k = true → ingestRun db k ft content outcome = db) ∧
    (ingestRun (ingestRun db k ft content none) k ft2 content2 outcome2 =
      ingestRun db k ft content none) ∧
    (∀ k₀, completeCount (ingestRun db k ft content outcome).log k₀ ≤ 1) := by
  refine ⟨ingestRun_skip db k ft content outcome, ?_, ?_⟩
  · by_cases h : hasComplete db.log k = true
    · rw [ingestRun_skip db k ft content none h]
      exact ingestRun_skip db k ft2 content2 outcome2 h
    · have h2 : hasComplete (ingestRun db k ft content none).log k = true := by
        rw [ingestRun_complete_log db k ft content h]
        simp [hasComplete, List.any_append]
      exact ingestRun_skip _ k ft2 content2 outcome2 h2
  · intro k₀
    by_cases h : hasComplete db.log k = true
    · rw [ingestRun_skip db k ft content outcome h]
      exact hcc k₀
    · rcases outcome with _ | ⟨m, e⟩
      · rw [ingestRun_complete_log db k ft content h, completeCount_append]
        by_cases hk : k₀ = k
        · subst hk
          rw [completeCount_eq_zero db.log k₀ (Bool.eq_false_iff.2 h)]
          simp [completeCount]
        · have hne : k ≠ k₀ := fun h' => hk h'.symm
          have hone : completeCount
              [{ key := k, file_type := ft, rows_inserted := some content.count,
                 status := IngestStatus.complete, error_text := none }] k₀ = 0 := by
            simp [completeCount, hne]
          rw [hone]
          simpa using hcc k₀
      · rw [ingestRun_failed_log db k ft content m e h, completeCount_append]
        have hzero : completeCount
            [{ key := k, file_type := ft, rows_inserted := none,
               status := IngestStatus.failed, error_text := some e }] k₀ = 0 := by
          simp [completeCount]
        rw [hzero]
        simpa using hcc k₀

/-- Witness for C1: a fresh store, the key ("f", 2023), one record. -/
theorem ingest_idempotent_witness :
    (hasComplete (⟨[], [], []⟩ : IngestDB).log (⟨"f", some 2023⟩ : IngestKey) = true →
      ingestRun (⟨[], [], []⟩ : IngestDB) (⟨"f", some 2023⟩ : IngestKey)
        "submissions" (FileRecords.submissions [default]) none =
        (⟨[], [], []⟩ : IngestDB)) ∧
    (ingestRun (ingestRun (⟨[], [], []⟩ : IngestDB) (⟨"f", some 2023⟩ : IngestKey)
        "submissions" (FileRecords.submissions [default]) none)
      (⟨"f", some 2023⟩ : IngestKey) "submissions"
      (FileRecords.submissions [default]) none =
      ingestRun (⟨[], [], []⟩ : IngestDB) (⟨"f", some 2023⟩ : IngestKey)
        "submissions" (FileRecords.submissions [default]) none) ∧
    (∀ k₀, completeCount (ingestRun (⟨[], [], []⟩ : IngestDB)
        (⟨"f", some 2023⟩ : IngestKey) "submissions"
        (FileRecords.submissions [default]) none).log k₀ ≤ 1) :=
  ingest_idempotent (⟨[], [], []⟩ : IngestDB) (⟨"f", some 2023⟩ : IngestKey)
    "submissions" "submissions"
    (FileRecords.submissions [default]) (FileRecords.submissions [default])
    none none (fun _ => by simp [completeCount])

end Nybblers
